import Mathlib

/-!
# Verification of the alchemy-sdk resilient subscription and dispatch design

Shallow embedding of the SDK's transaction namespace (`src/api/transact-namespace.ts`),
and of the resilient subscription layer described by the design document
(the websocket backfiller, RPC dispatcher and paginated iterator modules are
absent from the provided sources; they are modelled from the spec).
-/

set_option maxRecDepth 4000

namespace AlchemySdk

/-! ## Transact namespace (embedded from `src/api/transact-namespace.ts`) -/

/-- Hex encoding used by the SDK. The `util` module is absent from the sources;
this follows the standard JS pattern of prepending `0x` to `n.toString(16)`. -/
def toHex (n : Nat) : String :=
  "0x" ++ String.mk (Nat.toDigits 16 n)

/-- JavaScript truthiness of an optional `number` argument:
`undefined` and `0` are falsy, every other natural number is truthy. -/
def jsTruthy (n : Option Nat) : Bool :=
  match n with
  | none => false
  | some v => v != 0

/-- Options for `sendPrivateTransaction` (from `src/types/types.ts`). -/
structure SendPrivateTransactionOptions where
  fast : Bool
deriving DecidableEq

/-- The single JSON-RPC parameter object built by `sendPrivateTransaction`. -/
structure PrivateTxParams where
  tx : String
  maxBlockNumber : Option String
  preferences : Option SendPrivateTransactionOptions
deriving DecidableEq

/-- Embeds `TransactNamespace.sendPrivateTransaction`: the request body sent to
`eth_sendPrivateTransaction`. Mirrors
`const hexBlockNumber = maxBlockNumber ? toHex(maxBlockNumber) : undefined`. -/
def sendPrivateTransaction (signedTransaction : String)
    (maxBlockNumber : Option Nat)
    (options : Option SendPrivateTransactionOptions) : PrivateTxParams :=
  let hexBlockNumber : Option String :=
    if jsTruthy maxBlockNumber then maxBlockNumber.map toHex else none
  { tx := signedTransaction
    maxBlockNumber := hexBlockNumber
    preferences := options }

/-- A transaction as built inside `signGasTransactions`: the caller's request
together with the overridden `gasLimit` and `maxPriorityFeePerGas` fields.
The base request is kept abstract (type `α`). -/
structure TxWithGas (α : Type) where
  base : α
  gasLimit : Nat
  maxPriorityFeePerGas : Int
deriving DecidableEq

/-- JavaScript `Math.round`: round half toward positive infinity. -/
def mathRound (x : ℚ) : Int :=
  ⌊x + 1 / 2⌋

/-- The fee multipliers of `signGasTransactions`, in program order. -/
def multipliers : List ℚ :=
  [0.9, 1, 1.1, 1.2, 1.3]

/-- Embeds `signGasTransactions`: one signed transaction per multiplier, in
order; each shares the estimated `gasLimit` and scales the priority fee.
Signing is an external capability, passed in as `sign`. -/
def signGasTransactions {α σ : Type} (sign : TxWithGas α → σ)
    (transaction : α) (gasLimit : Nat) (priorityFee : Nat) : List σ :=
  multipliers.map fun feeMultiplier =>
    sign { base := transaction
           gasLimit := gasLimit
           maxPriorityFeePerGas := mathRound (feeMultiplier * (priorityFee : ℚ)) }

/-- The single `alchemy_sendRawTransaction` call issued by
`sendReinforcedTransaction`, carrying all signed transactions at once. -/
structure ReinforcedCall (σ : Type) where
  method : String
  serializedTransactions : List σ
deriving DecidableEq

/-- Embeds `TransactNamespace.sendReinforcedTransaction`. -/
def sendReinforcedTransaction {σ : Type} (signedTransactions : List σ) :
    ReinforcedCall σ :=
  { method := "alchemy_sendRawTransaction"
    serializedTransactions := signedTransactions }

/-- Embeds `TransactNamespace.sendAutoReinforcedTransaction`. The two remote
reads (`estimateGas`, `getMaxPriorityFeePerGas`) are supplied as `Except`
results; the `try/catch` wraps both, and on failure nothing is signed or
submitted. -/
def sendAutoReinforcedTransaction {α σ : Type} (sign : TxWithGas α → σ)
    (estimateGasResult : Except String Nat)
    (priorityFeeResult : Except String Nat)
    (transaction : α) : Except String (ReinforcedCall σ) :=
  match estimateGasResult with
  | .error e => .error ("Failed to estimate gas for transaction: " ++ e)
  | .ok gasLimit =>
    match priorityFeeResult with
    | .error e => .error ("Failed to estimate gas for transaction: " ++ e)
    | .ok priorityFee =>
      .ok (sendReinforcedTransaction
        (signGasTransactions sign transaction gasLimit priorityFee))

/-! ## RPC Dispatcher (modelled from the spec) -/

/-- Modelled from the spec: the RPC dispatcher module is absent from the
sources. Outcome of one attempt of a call: success, a transient failure
(`TransportError` or a rate-limit response, retried per policy), or a
structured server error (`RpcError`, not retried). -/
inductive RpcAttemptResult where
  | ok (value : Nat)
  | transient
  | rpcError
deriving DecidableEq

/-- Modelled from the spec: default of the `maxRetries` setting, documented in
`src/types/types.ts` as `Defaults to 5`. -/
def defaultMaxRetries : Nat := 5

/-- Modelled from the spec: the dispatcher retry loop. `responses` gives the
outcome of each attempt (numbered from `attempt`); transient failures are
retried while `retriesLeft` is positive, server errors are surfaced at once. -/
def dispatchWithRetry (responses : Nat → RpcAttemptResult) :
    Nat → Nat → Except String Nat
  | 0, attempt =>
    match responses attempt with
    | .ok v => .ok v
    | .rpcError => .error "RpcError"
    | .transient => .error "TransportError"
  | retriesLeft + 1, attempt =>
    match responses attempt with
    | .ok v => .ok v
    | .rpcError => .error "RpcError"
    | .transient => dispatchWithRetry responses retriesLeft (attempt + 1)

/-- Modelled from the spec: `call(method, params)` with the default retry
budget, starting at attempt `0`. -/
def call (responses : Nat → RpcAttemptResult) : Except String Nat :=
  dispatchWithRetry responses defaultMaxRetries 0

/-- Terminal outcome of a pending call, as observed by its caller. -/
inductive CallOutcome where
  | ok (value : Nat)
  | transportError
deriving DecidableEq

/-- Modelled from the spec: the dispatcher's correlation table. `pending`
holds the correlation ids of calls with no response yet; `resolved` records
completed calls in completion order. -/
structure DispatcherState where
  pending : List Nat
  resolved : List (Nat × CallOutcome)
deriving DecidableEq

/-- Modelled from the spec: an incoming response is matched to a waiting
pending call by correlation id; a response with no matching id is dropped. -/
def handleResponse (d : DispatcherState) (id value : Nat) : DispatcherState :=
  if id ∈ d.pending then
    { pending := d.pending.erase id
      resolved := d.resolved ++ [(id, .ok value)] }
  else d

/-- Modelled from the spec: on transport disconnect every pending call with no
response yet fails immediately with `TransportError`. -/
def handleDisconnect (d : DispatcherState) : DispatcherState :=
  { pending := []
    resolved := d.resolved ++ d.pending.map fun id => (id, .transportError) }

/-! ## Paginated Iterator (modelled from the spec) -/

/-- A page returned by the remote list endpoint: up to `pageSize` items plus
an optional `pageKey` cursor; absence of the key means no more pages
(cf. `OwnedNftsResponse.pageKey` in `src/types/types.ts`). -/
structure Page (α : Type) where
  items : List α
  pageKey : Option Nat
deriving DecidableEq

/-- Modelled from the spec: one page fetch is a single RPC call carrying the
current `PageCursor` (an index into a stable underlying data set); the
response carries the next cursor exactly when more items remain. -/
def fetchPage {α : Type} (data : List α) (pageSize : Nat) (cursor : Nat) :
    Page α :=
  { items := (data.drop cursor).take pageSize
    pageKey := if cursor + pageSize < data.length
               then some (cursor + pageSize) else none }

/-- Modelled from the spec: the iterator loop. Each step performs one
`fetchPage` call with the current cursor and terminates exactly when the
response carries no next cursor. Returns the delivered items and the number
of page fetches performed; `fuel` bounds the recursion. -/
def iterate {α : Type} (data : List α) (pageSize : Nat) :
    Nat → Nat → List α × Nat
  | 0, _ => ([], 0)
  | fuel + 1, cursor =>
    let p := fetchPage data pageSize cursor
    match p.pageKey with
    | none => (p.items, 1)
    | some next =>
      let r := iterate data pageSize fuel next
      (p.items ++ r.1, r.2 + 1)

/-- Modelled from the spec: full iteration from the first page. -/
def iterateAll {α : Type} (data : List α) (pageSize : Nat) : List α × Nat :=
  iterate data pageSize (data.length + 1) 0

/-! ## Subscription Registry and Backfiller (modelled from the spec)

The websocket provider and `src/internal/websocket-backfiller.ts` are absent
from the sources (only their tests survive); the per-subscription state
machine of spec sections 4.2 and 4.3 is modelled here. Cursors are the
ordered delivery keys (block numbers). -/

/-- Why a subscription reached its terminal state. -/
inductive CloseReason where
  | unsubscribed
  | unrecoverableGapError
deriving DecidableEq

/-- Modelled from the spec: per-subscription states. `backfilling lo hi`
carries the consumed-once `BackfillGap` with `lo` exclusive, `hi` inclusive. -/
inductive SubState where
  | active
  | suspended
  | backfilling (gapFrom gapTo : Nat)
  | closed (reason : CloseReason)
deriving DecidableEq

/-- Modelled from the spec: a logical subscription. `lastCursor` is the
last-delivered cursor, `buffer` holds live notifications buffered during
backfill, `delivered` records every cursor handed to the caller in order. -/
structure Subscription where
  state : SubState
  lastCursor : Nat
  buffer : List Nat
  delivered : List Nat
deriving DecidableEq

/-- Configuration surface consumed by the backfiller: the maximum backfill
window the remote API accepts. -/
structure BackfillConfig where
  maxBackfillWindow : Nat
deriving DecidableEq

/-- External events driving one subscription's state machine. -/
inductive SubEvent where
  | live (c : Nat)
  | disconnect
  | reconnect (head : Nat)
  | historyOk
  | historyFail
  | unsubscribe
deriving DecidableEq

/-- Deliver cursor `c` to the caller unless it is stale (at most the current
`lastCursor`), advancing `lastCursor` on delivery. -/
def deliverIfNew (s : Subscription) (c : Nat) : Subscription :=
  if s.lastCursor < c then
    { s with lastCursor := c, delivered := s.delivered ++ [c] }
  else s

/-- Modelled from the spec: drain the buffered live-notification queue,
discarding any entry with cursor at most the now-current `lastCursor` and
delivering the rest in order. -/
def drainBuffer (s : Subscription) : Subscription :=
  s.buffer.foldl deliverIfNew { s with buffer := [] }

/-- Modelled from the spec: the historical read endpoint queried for exactly
the half-open range `(lo, hi]`, in ascending cursor order. -/
def historyRange (lo hi : Nat) : List Nat :=
  List.range' (lo + 1) (hi - lo)

/-- Modelled from the spec: one transition of the per-subscription state
machine (spec sections 4.2 and 4.3). Live events are delivered when active,
buffered while a backfill is in flight, and impossible otherwise; a reconnect
from `suspended` computes the gap and either resumes, starts the single
backfill, or closes with `UnrecoverableGapError`; a reconnect in any other
state is a no-op, serializing backfills per subscription. -/
def step (cfg : BackfillConfig) (s : Subscription) (e : SubEvent) :
    Subscription :=
  match e with
  | .live c =>
    match s.state with
    | .active => deliverIfNew s c
    | .backfilling _ _ => { s with buffer := s.buffer ++ [c] }
    | _ => s
  | .disconnect =>
    match s.state with
    | .active => { s with state := .suspended, buffer := [] }
    | .backfilling _ _ => { s with state := .suspended, buffer := [] }
    | _ => s
  | .reconnect head =>
    match s.state with
    | .suspended =>
      if head ≤ s.lastCursor then
        drainBuffer { s with state := .active }
      else if head - s.lastCursor ≤ cfg.maxBackfillWindow then
        { s with state := .backfilling s.lastCursor head }
      else
        { s with state := .closed .unrecoverableGapError, buffer := [] }
    | _ => s
  | .historyOk =>
    match s.state with
    | .backfilling lo hi =>
      drainBuffer ((historyRange lo hi).foldl deliverIfNew
        { s with state := .active })
    | _ => s
  | .historyFail =>
    match s.state with
    | .backfilling _ _ =>
      { s with state := .closed .unrecoverableGapError, buffer := [] }
    | _ => s
  | .unsubscribe =>
    match s.state with
    | .closed _ => s
    | _ => { s with state := .closed .unsubscribed, buffer := [] }

/-- Run the state machine over a list of events. -/
def run (cfg : BackfillConfig) (s : Subscription) : List SubEvent →
    Subscription
  | [] => s
  | e :: es => run cfg (step cfg s e) es

/-- A freshly established subscription whose session starts at `startCursor`. -/
def initSub (startCursor : Nat) : Subscription :=
  { state := .active
    lastCursor := startCursor
    buffer := []
    delivered := [] }

/-- Cursors delivered by draining a queue from cursor `lc`: stale entries are
discarded, the rest delivered in order, each advancing the cursor. -/
def drainList : Nat → List Nat → List Nat
  | _, [] => []
  | lc, c :: cs => if lc < c then c :: drainList c cs else drainList lc cs

/-- Cursor position after draining a queue from cursor `lc`. -/
def drainLast : Nat → List Nat → Nat
  | lc, [] => lc
  | lc, c :: cs => if lc < c then drainLast c cs else drainLast lc cs

/-- Number of backfill runs in flight for one subscription (0 or 1 by
construction of the state space). -/
def inFlight (s : Subscription) : Nat :=
  match s.state with
  | .backfilling _ _ => 1
  | _ => 0

/-- Number of backfill runs started along a trace. -/
def backfillStarts (cfg : BackfillConfig) (s : Subscription) :
    List SubEvent → Nat
  | [] => 0
  | e :: es =>
    (if inFlight s < inFlight (step cfg s e) then 1 else 0) +
      backfillStarts cfg (step cfg s e) es

/-- Number of backfill runs completed (or aborted) along a trace. -/
def backfillEnds (cfg : BackfillConfig) (s : Subscription) :
    List SubEvent → Nat
  | [] => 0
  | e :: es =>
    (if inFlight (step cfg s e) < inFlight s then 1 else 0) +
      backfillEnds cfg (step cfg s e) es

/-! ## Helper lemmas on draining and delivery -/

lemma deliverIfNew_eq (s : Subscription) (c : Nat) :
    deliverIfNew s c =
      { s with delivered := s.delivered ++ drainList s.lastCursor [c]
               lastCursor := drainLast s.lastCursor [c] } := by
  by_cases hc : s.lastCursor < c <;> simp [deliverIfNew, drainList, drainLast, hc]

lemma foldl_deliverIfNew (buf : List Nat) :
    ∀ s : Subscription, buf.foldl deliverIfNew s =
      { s with delivered := s.delivered ++ drainList s.lastCursor buf
               lastCursor := drainLast s.lastCursor buf } := by
  induction buf with
  | nil => intro s; simp [drainList, drainLast]
  | cons c cs ih =>
    intro s
    rw [List.foldl_cons, ih (deliverIfNew s c)]
    by_cases hc : s.lastCursor < c <;>
      simp [deliverIfNew, drainList, drainLast, hc]

lemma drainBuffer_eq (s : Subscription) :
    drainBuffer s =
      { s with buffer := []
               delivered := s.delivered ++ drainList s.lastCursor s.buffer
               lastCursor := drainLast s.lastCursor s.buffer } := by
  unfold drainBuffer
  rw [foldl_deliverIfNew]

lemma drainList_props (buf : List Nat) : ∀ lc : Nat,
    List.Sorted (· < ·) (drainList lc buf) ∧
    (∀ c ∈ drainList lc buf, lc < c ∧ c ≤ drainLast lc buf) ∧
    lc ≤ drainLast lc buf := by
  induction buf with
  | nil => intro lc; simp [drainList, drainLast]
  | cons c cs ih =>
    intro lc
    by_cases hc : lc < c
    · obtain ⟨hs, hb, hl⟩ := ih c
      simp only [drainList, drainLast, if_pos hc]
      refine ⟨List.sorted_cons.mpr ⟨fun b hb2 => (hb b hb2).1, hs⟩, ?_,
        le_trans (le_of_lt hc) hl⟩
      intro b hb2
      rcases List.mem_cons.mp hb2 with rfl | hmem
      · exact ⟨hc, hl⟩
      · exact ⟨lt_trans hc (hb b hmem).1, (hb b hmem).2⟩
    · simp only [drainList, drainLast, if_neg hc]
      exact ih lc

lemma drainLast_le (lc : Nat) (buf : List Nat) : lc ≤ drainLast lc buf :=
  (drainList_props buf lc).2.2

lemma drainList_range (n : Nat) : ∀ lc : Nat,
    drainList lc (List.range' (lc + 1) n) = List.range' (lc + 1) n ∧
    drainLast lc (List.range' (lc + 1) n) = lc + n := by
  induction n with
  | zero => intro lc; simp [drainList, drainLast]
  | succ n ih =>
    intro lc
    rw [List.range'_succ]
    simp only [drainList, drainLast, if_pos (Nat.lt_succ_self lc)]
    obtain ⟨h1, h2⟩ := ih (lc + 1)
    constructor
    · rw [h1]
    · rw [h2]; omega

lemma sorted_bound_drain (del : List Nat) (lc : Nat) (buf : List Nat)
    (h1 : List.Sorted (· < ·) del) (h2 : ∀ c ∈ del, c ≤ lc) :
    List.Sorted (· < ·) (del ++ drainList lc buf) ∧
    ∀ c ∈ del ++ drainList lc buf, c ≤ drainLast lc buf := by
  obtain ⟨hs, hmem, hle⟩ := drainList_props buf lc
  constructor
  · exact List.pairwise_append.mpr
      ⟨h1, hs, fun a ha b hb => lt_of_le_of_lt (h2 a ha) (hmem b hb).1⟩
  · intro c hc
    rcases List.mem_append.mp hc with hm | hm
    · exact le_trans (h2 c hm) hle
    · exact (hmem c hm).2

/-- The delivery invariant of one subscription: the delivered cursor sequence
is strictly increasing, bounded by `lastCursor`, and a backfill gap in flight
starts exactly at `lastCursor`. -/
def Inv (s : Subscription) : Prop :=
  List.Sorted (· < ·) s.delivered ∧
  (∀ c ∈ s.delivered, c ≤ s.lastCursor) ∧
  ∀ lo hi, s.state = SubState.backfilling lo hi → lo = s.lastCursor

lemma initSub_inv (c0 : Nat) : Inv (initSub c0) := by
  refine ⟨List.sorted_nil, ?_, ?_⟩ <;> simp [initSub]

lemma step_inv (cfg : BackfillConfig) (s : Subscription) (e : SubEvent)
    (h : Inv s) : Inv (step cfg s e) := by
  obtain ⟨st, lc, buf, del⟩ := s
  obtain ⟨h1, h2, h3⟩ := h
  cases e with
  | live c =>
    cases st with
    | active =>
      show Inv (deliverIfNew ⟨.active, lc, buf, del⟩ c)
      rw [deliverIfNew_eq]
      obtain ⟨hs2, hb2⟩ := sorted_bound_drain del lc [c] h1 h2
      exact ⟨hs2, hb2, fun lo hi hq => nomatch hq⟩
    | suspended => exact ⟨h1, h2, h3⟩
    | backfilling lo0 hi0 => exact ⟨h1, h2, h3⟩
    | closed r => exact ⟨h1, h2, h3⟩
  | disconnect =>
    cases st with
    | active => exact ⟨h1, h2, fun lo hi hq => nomatch hq⟩
    | suspended => exact ⟨h1, h2, fun lo hi hq => nomatch hq⟩
    | backfilling lo0 hi0 => exact ⟨h1, h2, fun lo hi hq => nomatch hq⟩
    | closed r => exact ⟨h1, h2, fun lo hi hq => nomatch hq⟩
  | reconnect head =>
    cases st with
    | suspended =>
      show Inv (step cfg ⟨.suspended, lc, buf, del⟩ (.reconnect head))
      unfold step
      dsimp only
      by_cases hgap : head ≤ lc
      · rw [if_pos hgap, drainBuffer_eq]
        obtain ⟨hs2, hb2⟩ := sorted_bound_drain del lc buf h1 h2
        exact ⟨hs2, hb2, fun lo hi hq => nomatch hq⟩
      · rw [if_neg hgap]
        by_cases hwin : head - lc ≤ cfg.maxBackfillWindow
        · rw [if_pos hwin]
          refine ⟨h1, h2, ?_⟩
          intro lo hi hq
          injection hq with hq1 hq2
          exact hq1.symm
        · rw [if_neg hwin]
          exact ⟨h1, h2, fun lo hi hq => nomatch hq⟩
    | active => exact ⟨h1, h2, h3⟩
    | backfilling lo0 hi0 => exact ⟨h1, h2, h3⟩
    | closed r => exact ⟨h1, h2, h3⟩
  | historyOk =>
    cases st with
    | backfilling lo0 hi0 =>
      have hlo : lo0 = lc := h3 lo0 hi0 rfl
      subst hlo
      show Inv (drainBuffer ((historyRange lo0 hi0).foldl deliverIfNew
        ⟨.active, lo0, buf, del⟩))
      rw [foldl_deliverIfNew, drainBuffer_eq]
      obtain ⟨hr1, hr2⟩ := drainList_range (hi0 - lo0) lo0
      have hhr1 : drainList lo0 (historyRange lo0 hi0) = historyRange lo0 hi0 := hr1
      have hhr2 : drainLast lo0 (historyRange lo0 hi0) = lo0 + (hi0 - lo0) := hr2
      obtain ⟨ha1, ha2⟩ := sorted_bound_drain del lo0 (historyRange lo0 hi0) h1 h2
      obtain ⟨hb1, hb2⟩ := sorted_bound_drain
        (del ++ drainList lo0 (historyRange lo0 hi0))
        (drainLast lo0 (historyRange lo0 hi0)) buf ha1 ha2
      exact ⟨hb1, hb2, fun lo hi hq => nomatch hq⟩
    | active => exact ⟨h1, h2, h3⟩
    | suspended => exact ⟨h1, h2, h3⟩
    | closed r => exact ⟨h1, h2, h3⟩
  | historyFail =>
    cases st with
    | active => exact ⟨h1, h2, h3⟩
    | suspended => exact ⟨h1, h2, h3⟩
    | backfilling lo0 hi0 => exact ⟨h1, h2, fun lo hi hq => nomatch hq⟩
    | closed r => exact ⟨h1, h2, h3⟩
  | unsubscribe =>
    cases st with
    | active => exact ⟨h1, h2, fun lo hi hq => nomatch hq⟩
    | suspended => exact ⟨h1, h2, fun lo hi hq => nomatch hq⟩
    | backfilling lo0 hi0 => exact ⟨h1, h2, fun lo hi hq => nomatch hq⟩
    | closed r => exact ⟨h1, h2, fun lo hi hq => nomatch hq⟩

lemma run_inv (cfg : BackfillConfig) (evs : List SubEvent) :
    ∀ s : Subscription, Inv s → Inv (run cfg s evs) := by
  induction evs with
  | nil => intro s h; exact h
  | cons e es ih => intro s h; exact ih _ (step_inv cfg s e h)

lemma step_lastCursor_mono (cfg : BackfillConfig) (s : Subscription)
    (e : SubEvent) : s.lastCursor ≤ (step cfg s e).lastCursor := by
  obtain ⟨st, lc, buf, del⟩ := s
  cases e with
  | live c =>
    cases st with
    | active =>
      show lc ≤ (deliverIfNew ⟨.active, lc, buf, del⟩ c).lastCursor
      rw [deliverIfNew_eq]
      exact drainLast_le lc [c]
    | suspended => exact le_refl _
    | backfilling lo0 hi0 => exact le_refl _
    | closed r => exact le_refl _
  | disconnect => cases st <;> exact le_refl _
  | reconnect head =>
    cases st with
    | suspended =>
      show lc ≤ (step cfg ⟨.suspended, lc, buf, del⟩ (.reconnect head)).lastCursor
      unfold step
      dsimp only
      by_cases hgap : head ≤ lc
      · rw [if_pos hgap, drainBuffer_eq]
        exact drainLast_le lc buf
      · rw [if_neg hgap]
        by_cases hwin : head - lc ≤ cfg.maxBackfillWindow
        · rw [if_pos hwin]
        · rw [if_neg hwin]
    | active => exact le_refl _
    | backfilling lo0 hi0 => exact le_refl _
    | closed r => exact le_refl _
  | historyOk =>
    cases st with
    | backfilling lo0 hi0 =>
      show lc ≤ (drainBuffer ((historyRange lo0 hi0).foldl deliverIfNew
        ⟨.active, lc, buf, del⟩)).lastCursor
      rw [foldl_deliverIfNew, drainBuffer_eq]
      exact le_trans (drainLast_le lc (historyRange lo0 hi0))
        (drainLast_le (drainLast lc (historyRange lo0 hi0)) buf)
    | active => exact le_refl _
    | suspended => exact le_refl _
    | closed r => exact le_refl _
  | historyFail => cases st <;> exact le_refl _
  | unsubscribe => cases st <;> exact le_refl _

lemma run_lastCursor_mono (cfg : BackfillConfig) (evs : List SubEvent) :
    ∀ s : Subscription, s.lastCursor ≤ (run cfg s evs).lastCursor := by
  induction evs with
  | nil => intro s; exact le_refl _
  | cons e es ih =>
    intro s
    exact le_trans (step_lastCursor_mono cfg s e) (ih (step cfg s e))

lemma step_closed (cfg : BackfillConfig) (s : Subscription) (e : SubEvent)
    (r : CloseReason) (h : s.state = SubState.closed r) : step cfg s e = s := by
  obtain ⟨st, lc, buf, del⟩ := s
  cases st with
  | closed r2 => cases e <;> rfl
  | active => exact absurd h (by simp)
  | suspended => exact absurd h (by simp)
  | backfilling lo hi => exact absurd h (by simp)

lemma run_closed (cfg : BackfillConfig) (evs : List SubEvent) :
    ∀ (s : Subscription) (r : CloseReason), s.state = SubState.closed r →
      run cfg s evs = s := by
  induction evs with
  | nil => intro s r _; rfl
  | cons e es ih =>
    intro s r h
    show run cfg (step cfg s e) es = s
    rw [step_closed cfg s e r h]
    exact ih s r h

lemma inFlight_le_one (s : Subscription) : inFlight s ≤ 1 := by
  obtain ⟨st, lc, buf, del⟩ := s
  cases st <;> simp [inFlight]

lemma starts_ends_balance (cfg : BackfillConfig) (es : List SubEvent) :
    ∀ s : Subscription,
      backfillStarts cfg s es + inFlight s =
        backfillEnds cfg s es + inFlight (run cfg s es) := by
  induction es with
  | nil => intro s; simp [backfillStarts, backfillEnds, run]
  | cons e es ih =>
    intro s
    have hstep := ih (step cfg s e)
    have ha : inFlight s ≤ 1 := inFlight_le_one s
    have hb : inFlight (step cfg s e) ≤ 1 := inFlight_le_one (step cfg s e)
    show (if inFlight s < inFlight (step cfg s e) then 1 else 0) +
        backfillStarts cfg (step cfg s e) es + inFlight s =
      (if inFlight (step cfg s e) < inFlight s then 1 else 0) +
        backfillEnds cfg (step cfg s e) es + inFlight (run cfg (step cfg s e) es)
    by_cases h1 : inFlight s < inFlight (step cfg s e) <;>
      by_cases h2 : inFlight (step cfg s e) < inFlight s <;>
      simp only [if_pos, if_neg, h1, h2, if_true, if_false] <;> omega

lemma run_live_backfilling (cfg : BackfillConfig) (cs : List Nat) :
    ∀ (lo hi lc : Nat) (buf del : List Nat),
      run cfg ⟨.backfilling lo hi, lc, buf, del⟩ (cs.map SubEvent.live) =
        ⟨.backfilling lo hi, lc, buf ++ cs, del⟩ := by
  induction cs with
  | nil => intro lo hi lc buf del; simp [run]
  | cons c cs ih =>
    intro lo hi lc buf del
    show run cfg (step cfg ⟨.backfilling lo hi, lc, buf, del⟩ (.live c))
      (cs.map SubEvent.live) = _
    have hstep : step cfg ⟨.backfilling lo hi, lc, buf, del⟩ (.live c) =
        ⟨.backfilling lo hi, lc, buf ++ [c], del⟩ := rfl
    rw [hstep, ih lo hi lc (buf ++ [c]) del]
    simp

lemma run_append (cfg : BackfillConfig) (l1 l2 : List SubEvent) :
    ∀ s : Subscription, run cfg s (l1 ++ l2) = run cfg (run cfg s l1) l2 := by
  induction l1 with
  | nil => intro s; rfl
  | cons e es ih => intro s; exact ih (step cfg s e)

lemma step_reconnect_suspended (cfg : BackfillConfig) (lc : Nat)
    (buf del : List Nat) (head : Nat) :
    step cfg ⟨.suspended, lc, buf, del⟩ (.reconnect head) =
      if head ≤ lc then
        ⟨.active, drainLast lc buf, [], del ++ drainList lc buf⟩
      else if head - lc ≤ cfg.maxBackfillWindow then
        ⟨.backfilling lc head, lc, buf, del⟩
      else ⟨.closed .unrecoverableGapError, lc, [], del⟩ := by
  unfold step
  dsimp only
  by_cases hgap : head ≤ lc
  · rw [if_pos hgap, if_pos hgap, drainBuffer_eq]
  · rw [if_neg hgap, if_neg hgap]

lemma step_historyOk_backfilling (cfg : BackfillConfig) (lo hi lc : Nat)
    (buf del : List Nat) :
    step cfg ⟨.backfilling lo hi, lc, buf, del⟩ .historyOk =
      ⟨.active, drainLast (drainLast lc (historyRange lo hi)) buf, [],
        del ++ drainList lc (historyRange lo hi) ++
          drainList (drainLast lc (historyRange lo hi)) buf⟩ := by
  have h : step cfg ⟨.backfilling lo hi, lc, buf, del⟩ .historyOk =
      drainBuffer ((historyRange lo hi).foldl deliverIfNew
        ⟨.active, lc, buf, del⟩) := rfl
  rw [h, foldl_deliverIfNew, drainBuffer_eq]

/-! ## Claim theorems for the subscription layer -/

/-- C1: for every configuration, start cursor and sequence of
disconnect/reconnect (and other) events, the sequence of cursors delivered to
the caller is strictly increasing — hence no cursor is delivered twice — every
delivered cursor is at most the current `lastCursor`, and `lastCursor` is
monotonically non-decreasing over any continuation of any state. -/
theorem delivered_strictly_increasing (cfg : BackfillConfig) (c0 : Nat)
    (evs : List SubEvent) :
    List.Sorted (· < ·) (run cfg (initSub c0) evs).delivered ∧
    (run cfg (initSub c0) evs).delivered.Nodup ∧
    (∀ c ∈ (run cfg (initSub c0) evs).delivered,
        c ≤ (run cfg (initSub c0) evs).lastCursor) ∧
    ∀ (s : Subscription) (es : List SubEvent),
        s.lastCursor ≤ (run cfg s es).lastCursor := by
  obtain ⟨h1, h2, _⟩ := run_inv cfg evs (initSub c0) (initSub_inv c0)
  exact ⟨h1, List.Pairwise.imp (fun h => ne_of_lt h) h1, h2,
    fun s es => run_lastCursor_mono cfg es s⟩

/-- C7: a disconnect immediately followed by a reconnect whose backfill gap is
empty (session head at most `lastCursor`) is a no-op: the subscription's run
over any continuation of live events is identical, state, delivered sequence
and all, to the run without the disconnect/reconnect pair. -/
theorem empty_gap_reconnect_noop (cfg : BackfillConfig) (s : Subscription)
    (head : Nat) (evs : List SubEvent)
    (hstate : s.state = SubState.active) (hbuf : s.buffer = [])
    (hhead : head ≤ s.lastCursor) :
    run cfg s (SubEvent.disconnect :: SubEvent.reconnect head :: evs) =
      run cfg s evs := by
  obtain ⟨st, lc, buf, del⟩ := s
  dsimp only at hstate hbuf hhead
  subst hstate
  subst hbuf
  have h1 : step cfg ⟨.active, lc, [], del⟩ .disconnect =
      ⟨.suspended, lc, [], del⟩ := rfl
  have h2 : step cfg ⟨.suspended, lc, [], del⟩ (.reconnect head) =
      ⟨.active, lc, [], del⟩ := by
    rw [step_reconnect_suspended, if_pos hhead]
    simp [drainList, drainLast]
  show run cfg (step cfg (step cfg ⟨.active, lc, [], del⟩ .disconnect)
    (.reconnect head)) evs = run cfg ⟨.active, lc, [], del⟩ evs
  rw [h1, h2]

/-- C8: backfills are serialized per subscription: a reconnect arriving while
a backfill is already in flight is a no-op for that subscription, and along
any trace the number of backfill runs started never exceeds the number
completed plus one (at most one in flight at any time). -/
theorem backfill_serialized (cfg : BackfillConfig) (s : Subscription)
    (lo hi head : Nat) (hb : s.state = SubState.backfilling lo hi) :
    step cfg s (SubEvent.reconnect head) = s ∧
    (∀ (s2 : Subscription) (es : List SubEvent),
        backfillStarts cfg s2 es + inFlight s2 =
          backfillEnds cfg s2 es + inFlight (run cfg s2 es)) ∧
    ∀ (s2 : Subscription) (es : List SubEvent),
        backfillStarts cfg s2 es ≤ backfillEnds cfg s2 es + 1 := by
  refine ⟨?_, fun s2 es => starts_ends_balance cfg es s2, ?_⟩
  · obtain ⟨st, lc, buf, del⟩ := s
    cases st with
    | backfilling lo2 hi2 => rfl
    | active => exact absurd hb (by simp)
    | suspended => exact absurd hb (by simp)
    | closed r2 => exact absurd hb (by simp)
  · intro s2 es
    have h := starts_ends_balance cfg es s2
    have h1 := inFlight_le_one s2
    have h2 := inFlight_le_one (run cfg s2 es)
    omega

/-- Witness for C7 at a concrete subscription: a no-op disconnect/reconnect
around an active subscription at cursor 105 changes nothing. -/
theorem empty_gap_reconnect_noop_witness :
    run ⟨10⟩ ⟨SubState.active, 105, [], [105]⟩
        [SubEvent.disconnect, SubEvent.reconnect 105, SubEvent.live 106] =
      run ⟨10⟩ ⟨SubState.active, 105, [], [105]⟩ [SubEvent.live 106] :=
  empty_gap_reconnect_noop ⟨10⟩ ⟨SubState.active, 105, [], [105]⟩ 105
    [SubEvent.live 106] rfl rfl (by decide)

/-- Witness for C8 at a concrete subscription: a reconnect during an in-flight
backfill is ignored. -/
theorem backfill_serialized_witness :
    step ⟨5⟩ ⟨SubState.backfilling 3 5, 3, [], []⟩ (SubEvent.reconnect 9) =
      ⟨SubState.backfilling 3 5, 3, [], []⟩ :=
  (backfill_serialized ⟨5⟩ ⟨SubState.backfilling 3 5, 3, [], []⟩ 3 5 9 rfl).1

/-- C2: reconnecting a suspended subscription over a non-empty, in-window gap
starts a backfill for exactly the half-open range `(lastCursor, head]`
(ascending, `List.range'` from `lastCursor+1`); its completion delivers that
range in order, advances `lastCursor` to `head`, and then drains the live
notifications buffered during the backfill, discarding every entry with
cursor ≤ `head` and delivering the rest in order. -/
theorem backfill_delivers_gap (cfg : BackfillConfig) (s : Subscription)
    (head : Nat) (bufCs : List Nat)
    (hstate : s.state = SubState.suspended) (hbuf : s.buffer = [])
    (hgap : s.lastCursor < head)
    (hwin : head - s.lastCursor ≤ cfg.maxBackfillWindow) :
    (run cfg s (SubEvent.reconnect head ::
        (bufCs.map SubEvent.live ++ [SubEvent.historyOk]))).delivered =
      s.delivered ++ List.range' (s.lastCursor + 1) (head - s.lastCursor) ++
        drainList head bufCs ∧
    (run cfg s (SubEvent.reconnect head ::
        (bufCs.map SubEvent.live ++ [SubEvent.historyOk]))).state =
      SubState.active ∧
    (run cfg s (SubEvent.reconnect head ::
        (bufCs.map SubEvent.live ++ [SubEvent.historyOk]))).lastCursor =
      drainLast head bufCs ∧
    historyRange s.lastCursor head =
      List.range' (s.lastCursor + 1) (head - s.lastCursor) := by
  obtain ⟨st, lc, buf, del⟩ := s
  dsimp only at hstate hbuf hgap hwin ⊢
  subst hstate
  subst hbuf
  have e1 : step cfg ⟨.suspended, lc, [], del⟩ (.reconnect head) =
      ⟨.backfilling lc head, lc, [], del⟩ := by
    rw [step_reconnect_suspended, if_neg (by omega), if_pos hwin]
  have e2 : run cfg ⟨.backfilling lc head, lc, [], del⟩
      (bufCs.map SubEvent.live) = ⟨.backfilling lc head, lc, bufCs, del⟩ := by
    rw [run_live_backfilling]
    simp
  obtain ⟨hr1, hr2⟩ := drainList_range (head - lc) lc
  have hcancel : lc + (head - lc) = head := by omega
  have hhr1 : drainList lc (historyRange lc head) =
      List.range' (lc + 1) (head - lc) := hr1
  have hhr2 : drainLast lc (historyRange lc head) = head := by
    rw [show historyRange lc head = List.range' (lc + 1) (head - lc) from rfl,
      hr2, hcancel]
  have e3 : step cfg ⟨.backfilling lc head, lc, bufCs, del⟩ .historyOk =
      ⟨.active, drainLast head bufCs, [],
        del ++ List.range' (lc + 1) (head - lc) ++ drainList head bufCs⟩ := by
    rw [step_historyOk_backfilling, hhr1, hhr2]
  have hrun : run cfg ⟨.suspended, lc, [], del⟩ (SubEvent.reconnect head ::
      (bufCs.map SubEvent.live ++ [SubEvent.historyOk])) =
      ⟨.active, drainLast head bufCs, [],
        del ++ List.range' (lc + 1) (head - lc) ++ drainList head bufCs⟩ := by
    show run cfg (step cfg ⟨.suspended, lc, [], del⟩ (.reconnect head))
      (bufCs.map SubEvent.live ++ [SubEvent.historyOk]) = _
    rw [e1, run_append, e2]
    show step cfg ⟨.backfilling lc head, lc, bufCs, del⟩ .historyOk = _
    exact e3
  rw [hrun]
  exact ⟨rfl, rfl, rfl, rfl⟩

/-- Witness for C2, Scenario A: last delivered block 105, reconnect at chain
head 110 — blocks 106 through 110 are delivered exactly once each, in order,
and a buffered duplicate of 110 is discarded on drain. -/
theorem backfill_delivers_gap_witness :
    (run ⟨10⟩ ⟨SubState.suspended, 105, [], [105]⟩
        (SubEvent.reconnect 110 ::
          ([110].map SubEvent.live ++ [SubEvent.historyOk]))).delivered =
      [105, 106, 107, 108, 109, 110] := by
  have h := backfill_delivers_gap ⟨10⟩ ⟨SubState.suspended, 105, [], [105]⟩
    110 [110] rfl rfl (by decide) (by decide)
  rw [h.1]
  decide

/-- C3: a backfill gap exactly equal to the configured maximum window starts a
backfill that completes into `Active`, while a gap one unit larger — or a
failed historical query — closes the subscription with
`UnrecoverableGapError`; a closed subscription is absorbing: no later event
re-establishes it or delivers anything. -/
theorem gap_window_boundary (cfg : BackfillConfig) (s : Subscription)
    (r : CloseReason) (evs : List SubEvent)
    (hstate : s.state = SubState.suspended)
    (hw : 1 ≤ cfg.maxBackfillWindow) :
    (step cfg s (SubEvent.reconnect
        (s.lastCursor + cfg.maxBackfillWindow))).state =
      SubState.backfilling s.lastCursor
        (s.lastCursor + cfg.maxBackfillWindow) ∧
    (run cfg s [SubEvent.reconnect (s.lastCursor + cfg.maxBackfillWindow),
        SubEvent.historyOk]).state = SubState.active ∧
    (step cfg s (SubEvent.reconnect
        (s.lastCursor + cfg.maxBackfillWindow + 1))).state =
      SubState.closed CloseReason.unrecoverableGapError ∧
    (∀ lo hi, (step cfg { s with state := SubState.backfilling lo hi }
        SubEvent.historyFail).state =
      SubState.closed CloseReason.unrecoverableGapError) ∧
    (run cfg { s with state := SubState.closed r } evs).state =
      SubState.closed r ∧
    (run cfg { s with state := SubState.closed r } evs).delivered =
      s.delivered := by
  obtain ⟨st, lc, buf, del⟩ := s
  dsimp only at hstate ⊢
  subst hstate
  have e1 : step cfg ⟨.suspended, lc, buf, del⟩
      (.reconnect (lc + cfg.maxBackfillWindow)) =
      ⟨.backfilling lc (lc + cfg.maxBackfillWindow), lc, buf, del⟩ := by
    rw [step_reconnect_suspended, if_neg (by omega), if_pos (by omega)]
  have e2 : step cfg ⟨.suspended, lc, buf, del⟩
      (.reconnect (lc + cfg.maxBackfillWindow + 1)) =
      ⟨.closed .unrecoverableGapError, lc, [], del⟩ := by
    rw [step_reconnect_suspended, if_neg (by omega), if_neg (by omega)]
  have e4 := run_closed cfg evs ⟨.closed r, lc, buf, del⟩ r rfl
  refine ⟨by rw [e1], ?_, by rw [e2], fun lo hi => rfl, by rw [e4], by rw [e4]⟩
  show (run cfg (step cfg ⟨.suspended, lc, buf, del⟩
    (.reconnect (lc + cfg.maxBackfillWindow))) [SubEvent.historyOk]).state =
    SubState.active
  rw [e1]
  show (step cfg ⟨.backfilling lc (lc + cfg.maxBackfillWindow), lc, buf, del⟩
    .historyOk).state = SubState.active
  rw [step_historyOk_backfilling]

/-- Witness for C3: window 5, suspended at cursor 100 — a reconnect at head
105 backfills, at head 106 the subscription closes with
`UnrecoverableGapError` and stays closed and silent thereafter. -/
theorem gap_window_boundary_witness :
    (step ⟨5⟩ ⟨SubState.suspended, 100, [], []⟩ (SubEvent.reconnect 105)).state
        = SubState.backfilling 100 105 ∧
    (step ⟨5⟩ ⟨SubState.suspended, 100, [], []⟩ (SubEvent.reconnect 106)).state
        = SubState.closed CloseReason.unrecoverableGapError := by
  have h := gap_window_boundary ⟨5⟩ ⟨SubState.suspended, 100, [], []⟩
    CloseReason.unrecoverableGapError [SubEvent.reconnect 120] rfl (by decide)
  exact ⟨h.1, h.2.2.1⟩

/-! ## Claim theorems for the dispatcher -/

lemma dispatch_retry_ok (responses : Nat → RpcAttemptResult) (v : Nat) :
    ∀ (k retries attempt : Nat), k ≤ retries →
      (∀ i, i < k → responses (attempt + i) = RpcAttemptResult.transient) →
      responses (attempt + k) = RpcAttemptResult.ok v →
      dispatchWithRetry responses retries attempt = Except.ok v := by
  intro k
  induction k with
  | zero =>
    intro retries attempt _ _ hok
    rw [Nat.add_zero] at hok
    cases retries <;> simp [dispatchWithRetry, hok]
  | succ k ih =>
    intro retries attempt hk htr hok
    have h0 : responses attempt = RpcAttemptResult.transient := by
      have := htr 0 (Nat.succ_pos k)
      rwa [Nat.add_zero] at this
    cases retries with
    | zero => omega
    | succ retr =>
      rw [show dispatchWithRetry responses (retr + 1) attempt =
          dispatchWithRetry responses retr (attempt + 1) by
        simp [dispatchWithRetry, h0]]
      refine ih retr (attempt + 1) (by omega) ?_ ?_
      · intro i hi
        have := htr (i + 1) (by omega)
        rwa [show attempt + (i + 1) = attempt + 1 + i by omega] at this
      · rwa [show attempt + (k + 1) = attempt + 1 + k by omega] at hok

/-- C4: transient failures are retried up to `maxRetries` attempts, with
`maxRetries` defaulting to 5: whenever the first `k ≤ maxRetries` attempts
fail transiently and attempt `k` succeeds, the caller receives the successful
result — in particular a call failing 3 times with `TransportError` and
succeeding on the 4th attempt returns the value, not an error. -/
theorem retry_policy_transient (v k : Nat)
    (responses : Nat → RpcAttemptResult)
    (hk : k ≤ defaultMaxRetries)
    (htr : ∀ i, i < k → responses i = RpcAttemptResult.transient)
    (hok : responses k = RpcAttemptResult.ok v) :
    call responses = Except.ok v ∧ defaultMaxRetries = 5 := by
  refine ⟨?_, rfl⟩
  exact dispatch_retry_ok responses v k defaultMaxRetries 0 hk
    (fun i hi => by rw [Nat.zero_add]; exact htr i hi)
    (by rwa [Nat.zero_add])

/-- Witness for C4, Scenario B: three `TransportError` attempts then success
on the 4th attempt yield the successful result. -/
theorem retry_policy_transient_witness :
    call (fun i => if i < 3 then RpcAttemptResult.transient
                   else RpcAttemptResult.ok 7) = Except.ok 7 :=
  (retry_policy_transient 7 3
    (fun i => if i < 3 then RpcAttemptResult.transient
              else RpcAttemptResult.ok 7)
    (by decide) (fun i hi => if_pos hi) (by decide)).1

/-- C5: on transport disconnect, every pending call with no response yet
immediately resolves with `TransportError` — none is left unresolved, each is
resolved exactly once — and a stale response arriving afterwards for any
correlation id matches nothing and changes nothing. -/
theorem disconnect_fails_pending (d : DispatcherState) :
    (handleDisconnect d).pending = [] ∧
    (∀ id, id ∈ d.pending →
        (id, CallOutcome.transportError) ∈ (handleDisconnect d).resolved) ∧
    (∀ id v, handleResponse (handleDisconnect d) id v = handleDisconnect d) ∧
    (handleDisconnect d).resolved.length =
      d.resolved.length + d.pending.length := by
  refine ⟨rfl, ?_, ?_, ?_⟩
  · intro id hid
    show (id, CallOutcome.transportError) ∈
      d.resolved ++ d.pending.map fun i => (i, CallOutcome.transportError)
    exact List.mem_append_right _ (List.mem_map.mpr ⟨id, hid, rfl⟩)
  · intro id v
    unfold handleResponse
    rw [if_neg (by simp [handleDisconnect])]
  · simp [handleDisconnect]

/-- Witness for C5: both calls pending at disconnect resolve with
`TransportError`. -/
theorem disconnect_fails_pending_witness :
    (7, CallOutcome.transportError) ∈
      (handleDisconnect ⟨[7, 9], []⟩).resolved :=
  (disconnect_fails_pending ⟨[7, 9], []⟩).2.1 7 (by decide)

/-! ## Claim theorems for the paginated iterator -/

lemma iterate_complete {α : Type} (data : List α) (sz : Nat) (hsz : 0 < sz) :
    ∀ (fuel cursor : Nat), 0 < fuel → data.length ≤ cursor + sz * fuel →
      (iterate data sz fuel cursor).1 = data.drop cursor := by
  intro fuel
  induction fuel with
  | zero => intro cursor h0 _; exact absurd h0 (lt_irrefl 0)
  | succ fuel ih =>
    intro cursor _ hlen
    show (let p := fetchPage data sz cursor
      match p.pageKey with
      | none => (p.items, 1)
      | some next =>
        let r := iterate data sz fuel next
        (p.items ++ r.1, r.2 + 1)).1 = data.drop cursor
    by_cases hmore : cursor + sz < data.length
    · have hkey : (fetchPage data sz cursor).pageKey = some (cursor + sz) := by
        simp [fetchPage, hmore]
      simp only [hkey]
      have hfuel : 0 < fuel := by
        rcases Nat.eq_zero_or_pos fuel with h | h
        · subst h; rw [Nat.mul_one] at hlen; omega
        · exact h
      have hrest := ih (cursor + sz) hfuel
        (by rw [Nat.mul_succ] at hlen; omega)
      show (fetchPage data sz cursor).items ++
        (iterate data sz fuel (cursor + sz)).1 = data.drop cursor
      rw [hrest]
      show (data.drop cursor).take sz ++ data.drop (cursor + sz) = _
      rw [← List.drop_drop, List.take_append_drop]
    · have hkey : (fetchPage data sz cursor).pageKey = none := by
        simp [fetchPage, hmore]
      simp only [hkey]
      show (data.drop cursor).take sz = data.drop cursor
      apply List.take_of_length_le
      rw [List.length_drop]
      omega

/-- C6: the iterator fetches one page per RPC call carrying the current
cursor, terminates exactly when the response carries no next cursor, and
delivers the underlying data completely with no overlap or gap; iterating
over 251 items with page size 100 performs exactly 3 page fetches, the first
two responses carrying next-page cursors 100 and 200 and only the final one
carrying none. -/
theorem iterator_pagination (data : List Nat) (sz : Nat) (hsz : 0 < sz) :
    (iterateAll data sz).1 = data ∧
    iterateAll (List.range 251) 100 = (List.range 251, 3) ∧
    (fetchPage (List.range 251) 100 0).pageKey = some 100 ∧
    (fetchPage (List.range 251) 100 100).pageKey = some 200 ∧
    (fetchPage (List.range 251) 100 200).pageKey = none ∧
    (∀ (d2 : List Nat) (fuel cursor : Nat),
        (fetchPage d2 sz cursor).pageKey = none →
          iterate d2 sz (fuel + 1) cursor =
            ((fetchPage d2 sz cursor).items, 1)) ∧
    ∀ (d2 : List Nat) (fuel cursor next : Nat),
        (fetchPage d2 sz cursor).pageKey = some next →
          iterate d2 sz (fuel + 1) cursor =
            ((fetchPage d2 sz cursor).items ++ (iterate d2 sz fuel next).1,
              (iterate d2 sz fuel next).2 + 1) := by
  refine ⟨?_, by decide, by decide, by decide, by decide, ?_, ?_⟩
  · unfold iterateAll
    have hfuel : data.length ≤ 0 + sz * (data.length + 1) := by
      have h1 : 1 * (data.length + 1) ≤ sz * (data.length + 1) :=
        Nat.mul_le_mul_right (data.length + 1) hsz
      rw [Nat.one_mul] at h1
      omega
    rw [iterate_complete data sz hsz (data.length + 1) 0
      (Nat.succ_pos _) hfuel]
    rfl
  · intro d2 fuel cursor hnone
    show (let p := fetchPage d2 sz cursor
      match p.pageKey with
      | none => (p.items, 1)
      | some next =>
        let r := iterate d2 sz fuel next
        (p.items ++ r.1, r.2 + 1)) = _
    simp only [hnone]
  · intro d2 fuel cursor next hsome
    show (let p := fetchPage d2 sz cursor
      match p.pageKey with
      | none => (p.items, 1)
      | some next =>
        let r := iterate d2 sz fuel next
        (p.items ++ r.1, r.2 + 1)) = _
    simp only [hsome]

/-- Witness for C6, Scenario C: 251 items with page size 100 are delivered
completely. -/
theorem iterator_pagination_witness :
    (iterateAll (List.range 251) 100).1 = List.range 251 :=
  (iterator_pagination (List.range 251) 100 (by decide)).1

/-! ## Claim theorems for the transact namespace -/

/-- C9: `sendPrivateTransaction` includes the `maxBlockNumber` field,
hex-encoded via `toHex`, if and only if the argument is truthy; passing `0`
(falsy in JavaScript) sends the request with the field omitted rather than
as the hex string for zero. -/
theorem privateTx_maxBlockNumber_truthy (tx : String) (mb : Option Nat)
    (opts : Option SendPrivateTransactionOptions) (v : Nat) :
    (sendPrivateTransaction tx mb opts).maxBlockNumber.isSome = jsTruthy mb ∧
    (sendPrivateTransaction tx (some 0) opts).maxBlockNumber = none ∧
    (sendPrivateTransaction tx none opts).maxBlockNumber = none ∧
    (sendPrivateTransaction tx (some (v + 1)) opts).maxBlockNumber =
      some (toHex (v + 1)) ∧
    (sendPrivateTransaction tx mb opts).tx = tx := by
  refine ⟨?_, rfl, rfl, ?_, ?_⟩
  · cases mb with
    | none => rfl
    | some w =>
      by_cases hw : w = 0
      · subst hw; rfl
      · simp [sendPrivateTransaction, jsTruthy, hw]
  · have hv : ((v + 1 : Nat) != 0) = true := by simp
    simp [sendPrivateTransaction, jsTruthy, hv]
  · cases mb with
    | none => rfl
    | some w =>
      by_cases hw : w = 0
      · subst hw; rfl
      · simp [sendPrivateTransaction, jsTruthy, hw]

/-- C10: if either remote estimate fails, `sendAutoReinforcedTransaction`
fails with a message starting `Failed to estimate gas for transaction:` and
submits nothing; if both succeed it signs exactly five transactions — same
gas limit, priority fees `round(m * fee)` for multipliers 0.9, 1, 1.1, 1.2,
1.3 in that order — and submits them in order in one
`alchemy_sendRawTransaction` call. -/
theorem autoReinforced_gas_spread {α σ : Type} (sign : TxWithGas α → σ)
    (tx : α) (g p : Nat) (e : String) (pf : Except String Nat) :
    sendAutoReinforcedTransaction sign (Except.error e) pf tx =
      Except.error ("Failed to estimate gas for transaction: " ++ e) ∧
    sendAutoReinforcedTransaction sign (Except.ok g) (Except.error e) tx =
      Except.error ("Failed to estimate gas for transaction: " ++ e) ∧
    sendAutoReinforcedTransaction sign (Except.ok g) (Except.ok p) tx =
      Except.ok { method := "alchemy_sendRawTransaction"
                  serializedTransactions :=
                    (signGasTransactions id tx g p).map sign } ∧
    signGasTransactions id tx g p =
      [{ base := tx, gasLimit := g,
         maxPriorityFeePerGas := mathRound ((0.9 : ℚ) * p) },
       { base := tx, gasLimit := g,
         maxPriorityFeePerGas := mathRound ((1 : ℚ) * p) },
       { base := tx, gasLimit := g,
         maxPriorityFeePerGas := mathRound ((1.1 : ℚ) * p) },
       { base := tx, gasLimit := g,
         maxPriorityFeePerGas := mathRound ((1.2 : ℚ) * p) },
       { base := tx, gasLimit := g,
         maxPriorityFeePerGas := mathRound ((1.3 : ℚ) * p) }] := by
  refine ⟨rfl, rfl, ?_, rfl⟩
  show Except.ok (sendReinforcedTransaction (signGasTransactions sign tx g p))
    = _
  have hmap : signGasTransactions sign tx g p =
      (signGasTransactions id tx g p).map sign := by
    unfold signGasTransactions
    rw [List.map_map]
    rfl
  rw [hmap]
  rfl

end AlchemySdk
